import Mathlib

/-
Verification of the offline-durable commit queue of Gitdev-bot.

The embedding translates src/bot.py and src/add_project.py into Lean:
the persisted queue file is modelled at two levels (its parsed record
list, and for the persistence round trip its JSON value), version-control
effects are modelled as explicit operation traces, and the possibility of
an exception escaping a Python function is modelled by an Option-valued
exception field in each result structure.
-/

namespace GitdevBot

/-- One pending commit record, as persisted in the queue file by
queue_commit in src/bot.py: a message, a list of file paths, and a
timestamp string. -/
structure QueueRecord where
  message : String
  files : List String
  timestamp : String
deriving DecidableEq, Repr

/-- The persisted queue file, abstracted to its parsed content.
none models a missing file; some q models a file whose JSON parses
to the record list q. -/
abbrev Store := Option (List QueueRecord)

/-- load_queue in src/bot.py: returns the parsed file content, or the
empty list when the file does not exist. -/
def load_queue : Store → List QueueRecord
  | some q => q
  | none => []

/-- save_queue in src/bot.py: rewrites the whole file with the given
record list. -/
def save_queue (q : List QueueRecord) : Store :=
  some q

/-- queue_commit in src/bot.py: loads the queue, appends one record built
from the message, the files and the current timestamp, and saves. The
timestamp produced by datetime.now is passed in as a parameter. -/
def queue_commit (store : Store) (msg : String) (files : List String) (ts : String) : Store :=
  save_queue (load_queue store ++ [⟨msg, files, ts⟩])

/-- A version-control side effect performed on the repository: staging
files (repo.index.add), committing (repo.index.commit), or pushing to
origin (origin.push). -/
inductive GitOp where
  | stage (files : List String)
  | commit (message : String)
  | push
deriving DecidableEq, Repr

/-- The exception raised by origin.push inside the drain loop of
push_queue. push_queue has no try/except, so this exception escapes to
the caller. -/
inductive DrainExn where
  | pushFailure
deriving DecidableEq, Repr

/-- Result of one call to push_queue: the final persisted store, the
trace of completed git operations, the list of save_queue calls made,
and the exception that escaped the function, if any. -/
structure DrainResult where
  store : Store
  ops : List GitOp
  writes : List (List QueueRecord)
  exn : Option DrainExn
deriving Repr

/-- The for-loop body of push_queue applied along the queue: for each
record, stage its files, commit its message, then push. pushOk gives the
outcome of the k-th push attempt (counting from 0); the first failing
push raises, ending the loop with the operations completed so far. -/
def drainLoop (pushOk : Nat → Bool) : List QueueRecord → Nat → List GitOp × Option DrainExn
  | [], _ => ([], none)
  | r :: rest, k =>
    if pushOk k then
      let t := drainLoop pushOk rest (k + 1)
      (GitOp.stage r.files :: GitOp.commit r.message :: GitOp.push :: t.1, t.2)
    else
      ([GitOp.stage r.files, GitOp.commit r.message], some DrainExn.pushFailure)

/-- push_queue in src/bot.py: load the queue; if it is empty or the
prober says offline, return at once. Otherwise run the drain loop over
all records and, only when every push succeeded, save an empty queue.
A push exception propagates out before any save happens, leaving the
file untouched. -/
def push_queue (store : Store) (online : Bool) (pushOk : Nat → Bool) : DrainResult :=
  if (load_queue store).isEmpty || !online then
    { store := store, ops := [], writes := [], exn := none }
  else
    match drainLoop pushOk (load_queue store) 0 with
    | (ops, none) => { store := save_queue [], ops := ops, writes := [[]], exn := none }
    | (ops, some e) => { store := store, ops := ops, writes := [], exn := some e }

/-- Outcome of the network reachability probe performed by
requests.head inside is_online: the request may time out, fail with a
network error (both raise a RequestException), or complete with an HTTP
response carrying some status code. -/
inductive ProbeOutcome where
  | timeout
  | netError
  | response (status : Nat)
deriving DecidableEq, Repr

/-- is_online in src/bot.py: requests.head under try/except
RequestException. A timeout or network error is caught and yields false;
any completed response yields true. The response status is never
inspected, and the except clause covers every failure mode of the
request, so the function always returns a Bool. -/
def is_online (o : ProbeOutcome) : Bool :=
  match o with
  | ProbeOutcome.timeout => false
  | ProbeOutcome.netError => false
  | ProbeOutcome.response _ => true

/-- HTTP success statuses, the 2xx range. Used to state what a
non-success signal from the probed endpoint is. -/
def successStatus (s : Nat) : Bool :=
  200 ≤ s && s < 300

/-- A console notice emitted by commit_and_push or queue_commit. -/
inductive Event where
  | pushedNotice (msg : String)
  | couldNotPushNotice
  | queuedNotice (msg : String)
deriving DecidableEq, Repr

/-- The exception escaping commit_and_push: repo.index.add and
repo.index.commit are outside any try block, so their exceptions
propagate; the push is wrapped in a bare except and never propagates. -/
inductive GitExn where
  | stageExn
  | commitExn
deriving DecidableEq, Repr

/-- Outcomes of the three git steps attempted by commit_and_push:
whether staging, committing and pushing would succeed if attempted.
A false pushOk stands for an arbitrary exception from origin.push. -/
structure GitOutcome where
  stageOk : Bool
  commitOk : Bool
  pushOk : Bool
deriving DecidableEq, Repr

/-- Result of one call to commit_and_push: final store, completed git
operations, emitted notices, and the exception that escaped, if any. -/
structure DispatchResult where
  store : Store
  ops : List GitOp
  events : List Event
  exn : Option GitExn
deriving Repr

/-- commit_and_push in src/bot.py. Online: stage, commit, then push
inside try; a push exception is swallowed by the bare except, a notice
is printed and queue_commit runs. Offline: queue_commit only, touching
nothing in the repository. The queued notice printed by queue_commit is
recorded here as an event. -/
def commit_and_push (online : Bool) (oc : GitOutcome) (store : Store)
    (msg : String) (files : List String) (ts : String) : DispatchResult :=
  if online then
    if oc.stageOk = false then
      { store := store, ops := [], events := [], exn := some GitExn.stageExn }
    else if oc.commitOk = false then
      { store := store, ops := [GitOp.stage files], events := [], exn := some GitExn.commitExn }
    else if oc.pushOk then
      { store := store, ops := [GitOp.stage files, GitOp.commit msg, GitOp.push],
        events := [Event.pushedNotice msg], exn := none }
    else
      { store := queue_commit store msg files ts,
        ops := [GitOp.stage files, GitOp.commit msg],
        events := [Event.couldNotPushNotice, Event.queuedNotice msg], exn := none }
  else
    { store := queue_commit store msg files ts, ops := [],
      events := [Event.queuedNotice msg], exn := none }

/-- The report printed by check_push_status: a fetch failure notice, the
fully-synced message, or the enumeration of the pending sets (staged
paths, commits in the computed range, queued commit messages). -/
inductive Report where
  | fetchError
  | fullySynced
  | pending (staged : List String) (unpushed : List Nat) (queuedMsgs : List String)
deriving DecidableEq, Repr

/-- repo.iter_commits with a range fromRev..toRev: the commits reachable
from toRev that are not reachable from fromRev. A branch history is
modelled as the list of commit ids reachable from its tip. -/
def iter_commits_range (fromHist toHist : List Nat) : List Nat :=
  toHist.filter (fun c => !(fromHist.contains c))

/-- check_push_status in src/bot.py: fetch under try/except, returning a
fetch-error notice when it raises; otherwise compute
iter_commits over the range branch..origin/branch, load the queue, list
staged paths, and report fully-synced exactly when all three lists are
empty. -/
def check_push_status (fetchOk : Bool) (localHist remoteHist : List Nat)
    (store : Store) (staged : List String) : Report :=
  if !fetchOk then
    Report.fetchError
  else
    if (iter_commits_range localHist remoteHist).isEmpty
        && (load_queue store).isEmpty && staged.isEmpty then
      Report.fullySynced
    else
      Report.pending staged (iter_commits_range localHist remoteHist)
        ((load_queue store).map QueueRecord.message)

/-- Modelled from the spec: the committedNotPushed set of the status
reporter, the commits present in the local branch history that are
absent from the fetched remote branch tip. Stated for comparison with
the range the code actually passes to iter_commits. -/
def committedNotPushedSpec (localHist remoteHist : List Nat) : List Nat :=
  localHist.filter (fun c => !(remoteHist.contains c))

/-- JSON values, as produced by json.load and consumed by json.dump on
the queue file. -/
inductive Json where
  | null
  | bool (b : Bool)
  | num (n : Int)
  | str (s : String)
  | arr (xs : List Json)
  | obj (kvs : List (String × Json))

/-- Reading a JSON value as a string, as the code does when it uses
item fields as text. -/
def Json.asStr : Json → Option String
  | Json.str s => some s
  | _ => none

/-- Dictionary key access on a parsed JSON object, as in item of key:
the value stored under the first matching key (keys of a parsed Python
dict are unique). -/
def jlookup : List (String × Json) → String → Option Json
  | [], _ => none
  | (k, v) :: rest, key => if k = key then some v else jlookup rest key

/-- Reading a JSON array of strings as a file list. -/
def decodeStrList : List Json → Option (List String)
  | [] => some []
  | j :: rest =>
    match j.asStr, decodeStrList rest with
    | some s, some ss => some (s :: ss)
    | _, _ => none

/-- Reading a JSON value as a files list: it must be an array of
strings. -/
def decodeFilesJson : Json → Option (List String)
  | Json.arr xs => decodeStrList xs
  | _ => none

/-- Reading one queue entry from its parsed JSON object through the
accesses the code performs: item of message, item of files, item of
timestamp. Extra keys are ignored, matching dict access. -/
def decodeRecord (j : Json) : Option QueueRecord :=
  match j with
  | Json.obj kvs =>
    match (jlookup kvs "message").bind Json.asStr,
          (jlookup kvs "files").bind decodeFilesJson,
          (jlookup kvs "timestamp").bind Json.asStr with
    | some m, some fs, some ts => some ⟨m, fs, ts⟩
    | _, _, _ => none
  | _ => none

/-- Reading a list of queue entries. -/
def decodeRecList : List Json → Option (List QueueRecord)
  | [] => some []
  | j :: rest =>
    match decodeRecord j, decodeRecList rest with
    | some r, some rs => some (r :: rs)
    | _, _ => none

/-- Reading a whole queue file value: it must be a JSON array of
records. -/
def decodeQueue : Json → Option (List QueueRecord)
  | Json.arr xs => decodeRecList xs
  | _ => none

/-- json.dump of one record: the object queue_commit builds, with keys
message, files and timestamp. -/
def encodeRecord (r : QueueRecord) : Json :=
  Json.obj [("message", Json.str r.message),
            ("files", Json.arr (r.files.map Json.str)),
            ("timestamp", Json.str r.timestamp)]

/-- json.dump of the whole queue: an array of record objects. -/
def encodeQueue (q : List QueueRecord) : Json :=
  Json.arr (q.map encodeRecord)

/-- load_queue at the level of the JSON file: none is a missing file,
yielding the empty queue; an existing file is parsed and its records
read. A file whose value does not decode has no record-list reading;
that is the shape Python would crash on at first field access. -/
def load_queue_file : Option Json → Option (List QueueRecord)
  | none => some []
  | some j => decodeQueue j

/-- save_queue at the level of the JSON file: the file is rewritten
with the serialization of the record list. -/
def save_queue_file (q : List QueueRecord) : Option Json :=
  some (encodeQueue q)

/-- The project registry persisted in .devbot_projects.json: the
name-to-path dictionary (an association list with unique keys, in
insertion order, as a parsed Python dict) and the default project
name. The field dflt embeds the key named default. -/
structure Registry where
  projects : List (String × String)
  dflt : Option String
deriving DecidableEq, Repr

/-- Python membership test name in dict on the projects dictionary. -/
def hasKey : List (String × String) → String → Bool
  | [], _ => false
  | (k, _) :: rest, key => if k = key then true else hasKey rest key

/-- Python dict assignment d at name becomes path: overwrite the value
in place when the key exists, append a new entry otherwise. -/
def dictInsert (kvs : List (String × String)) (key v : String) : List (String × String) :=
  if hasKey kvs key then
    kvs.map (fun kv => if kv.1 = key then (key, v) else kv)
  else
    kvs ++ [(key, v)]

/-- Python dict lookup on the projects dictionary. -/
def lookupPath : List (String × String) → String → Option String
  | [], _ => none
  | (k, v) :: rest, key => if k = key then some v else lookupPath rest key

/-- Python str.strip on the character list of a string: drop leading
and trailing whitespace. -/
def stripChars (cs : List Char) : List Char :=
  ((cs.dropWhile Char.isWhitespace).reverse.dropWhile Char.isWhitespace).reverse

/-- Python str.strip. -/
def pyStrip (s : String) : String :=
  String.mk (stripChars s.data)

/-- Python str.lower, restricted to the character-wise lowering that
suffices for the registration prompt answers. -/
def pyLower (s : String) : String :=
  String.mk (s.data.map Char.toLower)

/-- The src/add_project.py script on loaded registry data: strip the
entered name and path, assign projects at name to path, set the default
to the name exactly when the stripped lowercased answer is the letter y,
and rewrite the file. -/
def add_project (data : Registry) (rawName rawPath rawAnswer : String) : Registry :=
  let name := pyStrip rawName
  let path := pyStrip rawPath
  let updated := { data with projects := dictInsert data.projects name path }
  if pyLower (pyStrip rawAnswer) = "y" then
    { updated with dflt := some name }
  else
    updated

/-- The concatenated git operations a fully successful drain performs:
for each record in queue order, stage its files, commit its message,
push. -/
def drainOps : List QueueRecord → List GitOp
  | [] => []
  | r :: rest => GitOp.stage r.files :: GitOp.commit r.message :: GitOp.push :: drainOps rest

/-- The main loop dispatching a sequence of commit requests
(message, files, timestamp) through commit_and_push while the prober
reports offline, starting from the given store. -/
def dispatch_offline_all : Store → List (String × List String × String) → Store
  | store, [] => store
  | store, r :: rs =>
      dispatch_offline_all
        (commit_and_push false ⟨true, true, true⟩ store r.1 r.2.1 r.2.2).store rs

/-- The record a dispatch request gives rise to. -/
def reqRecord (r : String × List String × String) : QueueRecord :=
  ⟨r.1, r.2.1, r.2.2⟩

/-- When every push attempt succeeds, the drain loop completes the full
trace of staged, committed and pushed records in queue order and raises
nothing. -/
theorem drainLoop_all_true (pushOk : Nat → Bool) (hall : ∀ i, pushOk i = true) :
    ∀ (queue : List QueueRecord) (start : Nat),
      drainLoop pushOk queue start = (drainOps queue, none) := by
  intro queue
  induction queue with
  | nil => intro start; rfl
  | cons r rest ih =>
    intro start
    simp [drainLoop, drainOps, hall start, ih (start + 1)]

/-- When some push attempt within range fails, the drain loop ends with
the push exception. -/
theorem drainLoop_fails (pushOk : Nat → Bool) :
    ∀ (queue : List QueueRecord) (start i : Nat),
      i < queue.length → pushOk (start + i) = false →
      (drainLoop pushOk queue start).2 = some DrainExn.pushFailure := by
  intro queue
  induction queue with
  | nil => intro start i hi; simp at hi
  | cons r rest ih =>
    intro start i hi hfail
    by_cases hk : pushOk start = true
    · have hi0 : i ≠ 0 := by
        intro h0
        rw [h0, Nat.add_zero] at hfail
        rw [hk] at hfail
        exact Bool.noConfusion hfail
      obtain ⟨j, rfl⟩ : ∃ j, i = j + 1 := ⟨i - 1, by omega⟩
      have hj : j < rest.length := by simpa using Nat.lt_of_succ_lt_succ (by simpa using hi)
      have hfail2 : pushOk (start + 1 + j) = false := by
        have : start + 1 + j = start + (j + 1) := by omega
        rw [this]; exact hfail
      simp [drainLoop, hk]
      exact ih (start + 1) j hj hfail2
    · simp [drainLoop, Bool.eq_false_iff.mpr hk]

/-- A failed drain leaves the store exactly as it was, performs no
save, and lets the push exception escape. -/
theorem push_queue_fail (records : List QueueRecord) (pushOk : Nat → Bool)
    (i : Nat) (hi : i < records.length) (hfail : pushOk i = false) :
    push_queue (some records) true pushOk =
      { store := some records, ops := (drainLoop pushOk records 0).1,
        writes := [], exn := some DrainExn.pushFailure } := by
  have hne : records.isEmpty = false := by
    cases records with
    | nil => simp at hi
    | cons r rest => rfl
  have h2 : (drainLoop pushOk records 0).2 = some DrainExn.pushFailure :=
    drainLoop_fails pushOk records 0 i (by simpa using hi) (by simpa using hfail)
  rcases hdl : drainLoop pushOk records 0 with ⟨ops, e⟩
  have he : e = some DrainExn.pushFailure := by rw [hdl] at h2; exact h2
  subst he
  simp [push_queue, load_queue, hne, hdl]

/-- Dispatching requests while offline only appends their records, in
order, to the loaded queue. -/
theorem dispatch_offline_all_load (reqs : List (String × List String × String)) :
    ∀ (q : List QueueRecord),
      dispatch_offline_all (some q) reqs = some (q ++ reqs.map reqRecord) := by
  induction reqs with
  | nil => intro q; simp [dispatch_offline_all]
  | cons r rs ih =>
    intro q
    have hstep : (commit_and_push false ⟨true, true, true⟩ (some q) r.1 r.2.1 r.2.2).store
        = some (q ++ [reqRecord r]) := by
      simp [commit_and_push, queue_commit, load_queue, save_queue, reqRecord]
    simp only [dispatch_offline_all, hstep, ih (q ++ [reqRecord r])]
    simp [reqRecord]

/-- Reading back a serialized string list gives the list itself. -/
theorem decodeStrList_map (files : List String) :
    decodeStrList (files.map Json.str) = some files := by
  induction files with
  | nil => rfl
  | cons f fs ih => simp [decodeStrList, Json.asStr, ih]

/-- Reading back a serialized record gives the record itself. -/
theorem decodeRecord_encodeRecord (r : QueueRecord) :
    decodeRecord (encodeRecord r) = some r := by
  simp [decodeRecord, encodeRecord, jlookup, Json.asStr, decodeFilesJson,
    decodeStrList_map, Option.bind]

/-- Reading back a serialized record list gives the list itself. -/
theorem decodeRecList_map (q : List QueueRecord) :
    decodeRecList (q.map encodeRecord) = some q := by
  induction q with
  | nil => rfl
  | cons r rs ih => simp [decodeRecList, decodeRecord_encodeRecord, ih]

/-- Reading back a serialized queue gives the queue itself. -/
theorem decodeQueue_encodeQueue (q : List QueueRecord) :
    decodeQueue (encodeQueue q) = some q := by
  simp [decodeQueue, encodeQueue, decodeRecList_map]

/-- Entries under other keys survive a dict assignment. -/
theorem dictInsert_preserves (kvs : List (String × String)) (key v : String)
    (k w : String) (hmem : (k, w) ∈ kvs) (hne : k ≠ key) :
    (k, w) ∈ dictInsert kvs key v := by
  unfold dictInsert
  by_cases h : hasKey kvs key
  · rw [if_pos h]
    have : (fun kv : String × String => if kv.1 = key then (key, v) else kv) (k, w) = (k, w) := by
      simp [hne]
    exact this ▸ List.mem_map_of_mem _ hmem
  · rw [if_neg h]
    exact List.mem_append_left _ hmem

/-- Looking up the key after overwriting it in place. -/
theorem lookupPath_overwrite (key v : String) :
    ∀ kvs : List (String × String), hasKey kvs key = true →
      lookupPath (kvs.map (fun kv => if kv.1 = key then (key, v) else kv)) key = some v := by
  intro kvs
  induction kvs with
  | nil => intro h; simp [hasKey] at h
  | cons kv rest ih =>
    intro h
    rcases kv with ⟨a, b⟩
    simp only [List.map_cons]
    by_cases hk : a = key
    · rw [if_pos hk]
      simp [lookupPath]
    · rw [if_neg hk]
      have hrest : hasKey rest key = true := by
        simp only [hasKey] at h
        rw [if_neg hk] at h
        exact h
      simp [lookupPath, hk, ih hrest]

/-- Looking up the key after appending a fresh entry for it. -/
theorem lookupPath_append_fresh (key v : String) :
    ∀ kvs : List (String × String), hasKey kvs key = false →
      lookupPath (kvs ++ [(key, v)]) key = some v := by
  intro kvs
  induction kvs with
  | nil => intro h; simp [lookupPath]
  | cons kv rest ih =>
    intro h
    rcases kv with ⟨a, b⟩
    have ha : a ≠ key := by
      intro heq
      simp [hasKey, heq] at h
    have hrest : hasKey rest key = false := by
      simp only [hasKey] at h
      rw [if_neg ha] at h
      exact h
    simp [lookupPath, ha, ih hrest]

/-- After a dict assignment, looking the key up yields the assigned
value. -/
theorem lookupPath_dictInsert (kvs : List (String × String)) (key v : String) :
    lookupPath (dictInsert kvs key v) key = some v := by
  unfold dictInsert
  by_cases h : hasKey kvs key
  · rw [if_pos h]
    exact lookupPath_overwrite key v kvs h
  · rw [if_neg h]
    exact lookupPath_append_fresh key v kvs (by simpa using h)

/-- A drain in which every push succeeds performs the full trace in
queue order, saves the empty queue and raises nothing. -/
theorem push_queue_all_ok (q : List QueueRecord) (pushOk : Nat → Bool)
    (hall : ∀ i, pushOk i = true) :
    (push_queue (some q) true pushOk).ops = drainOps q ∧
    (push_queue (some q) true pushOk).store = some [] ∧
    (push_queue (some q) true pushOk).exn = none := by
  cases q with
  | nil => exact ⟨rfl, rfl, rfl⟩
  | cons r rest =>
    have hdl := drainLoop_all_true pushOk hall (r :: rest) 0
    refine ⟨?_, ?_, ?_⟩ <;> simp [push_queue, load_queue, hdl, save_queue]

/-- Claim C1 counterexample: with queue records A then B, the push of
record 2 fails during the drain; the claim predicts a persisted queue of
exactly record 2, but the code leaves both records persisted. -/
theorem c1_counterexample :
    (push_queue (some [⟨"A", ["x.py"], "t1"⟩, ⟨"B", ["y.py"], "t2"⟩]) true
        (fun k => k == 0)).exn = some DrainExn.pushFailure ∧
    (push_queue (some [⟨"A", ["x.py"], "t1"⟩, ⟨"B", ["y.py"], "t2"⟩]) true
        (fun k => k == 0)).store
      = some [⟨"A", ["x.py"], "t1"⟩, ⟨"B", ["y.py"], "t2"⟩] ∧
    (push_queue (some [⟨"A", ["x.py"], "t1"⟩, ⟨"B", ["y.py"], "t2"⟩]) true
        (fun k => k == 0)).store ≠ some [⟨"B", ["y.py"], "t2"⟩] := by
  refine ⟨rfl, rfl, ?_⟩
  decide

/-- Claim C1 (amended): if record K is the first whose push fails during
a drain of records 1..N, the persisted queue after the attempt is the
full original sequence 1..N — no record is removed, the already-pushed
records 1..K-1 included, because no save happens before the exception
escapes. -/
theorem c1_failed_drain_keeps_all_records (records : List QueueRecord) (pushOk : Nat → Bool)
    (K : Nat) (hK1 : 1 ≤ K) (hKN : K ≤ records.length)
    (_hearlier : ∀ i, i < K - 1 → pushOk i = true)
    (hfail : pushOk (K - 1) = false) :
    (push_queue (some records) true pushOk).store = some records ∧
    (push_queue (some records) true pushOk).writes = [] ∧
    (push_queue (some records) true pushOk).exn = some DrainExn.pushFailure := by
  have h := push_queue_fail records pushOk (K - 1) (by omega) hfail
  rw [h]
  exact ⟨rfl, rfl, rfl⟩

/-- Witness for the amended claim C1 at a concrete two-record queue
whose second push fails. -/
theorem c1_failed_drain_keeps_all_records_witness :
    (push_queue (some [⟨"A", ["x.py"], "t1"⟩, ⟨"C", ["z.py"], "t3"⟩]) true
        (fun k => k == 0)).store
      = some [⟨"A", ["x.py"], "t1"⟩, ⟨"C", ["z.py"], "t3"⟩] ∧
    (push_queue (some [⟨"A", ["x.py"], "t1"⟩, ⟨"C", ["z.py"], "t3"⟩]) true
        (fun k => k == 0)).writes = [] ∧
    (push_queue (some [⟨"A", ["x.py"], "t1"⟩, ⟨"C", ["z.py"], "t3"⟩]) true
        (fun k => k == 0)).exn = some DrainExn.pushFailure :=
  c1_failed_drain_keeps_all_records _ _ 2 (by omega) (by simp)
    (fun i hi => by
      have h0 : i = 0 := by omega
      subst h0
      rfl)
    rfl

/-- Claim C2 counterexample: a one-record drain whose push fails; the
claim predicts that the drain returns normally, but the exception
escapes push_queue to its caller. -/
theorem c2_counterexample :
    (push_queue (some [⟨"fix bug", ["a.py"], "t"⟩]) true (fun _ => false)).exn
        = some DrainExn.pushFailure ∧
    (push_queue (some [⟨"fix bug", ["a.py"], "t"⟩]) true (fun _ => false)).exn ≠ none := by
  refine ⟨rfl, ?_⟩
  decide

/-- Claim C2 (amended): when some record push fails during a drain, the
exception escapes push_queue to its caller — main has no handler around
it, so the invocation terminates — while the backlog stays persisted
unchanged for the next invocation. -/
theorem c2_failed_drain_raises (records : List QueueRecord) (pushOk : Nat → Bool)
    (i : Nat) (hi : i < records.length) (hfail : pushOk i = false) :
    (push_queue (some records) true pushOk).exn = some DrainExn.pushFailure ∧
    (push_queue (some records) true pushOk).store = some records := by
  have h := push_queue_fail records pushOk i hi hfail
  rw [h]
  exact ⟨rfl, rfl⟩

/-- Witness for the amended claim C2 at a concrete one-record queue
whose push fails. -/
theorem c2_failed_drain_raises_witness :
    (push_queue (some [⟨"B", ["b.py"], "t2"⟩]) true (fun _ => false)).exn
        = some DrainExn.pushFailure ∧
    (push_queue (some [⟨"B", ["b.py"], "t2"⟩]) true (fun _ => false)).store
        = some [⟨"B", ["b.py"], "t2"⟩] :=
  c2_failed_drain_raises [⟨"B", ["b.py"], "t2"⟩] (fun _ => false) 0 (by simp) rfl

/-- Claim C3: for any sequence of commit requests dispatched while
offline — none, one, or many — a subsequent online drain with all pushes
succeeding performs, for the i-th enqueued record, the i-th
stage-commit-push triple with exactly that record files and message, in
enqueue order, then leaves the queue empty. -/
theorem c3_drain_replays_in_enqueue_order (reqs : List (String × List String × String))
    (pushOk : Nat → Bool) (hall : ∀ i, pushOk i = true) :
    (push_queue (dispatch_offline_all (some []) reqs) true pushOk).ops
        = drainOps (reqs.map reqRecord) ∧
    (push_queue (dispatch_offline_all (some []) reqs) true pushOk).store = some [] ∧
    (push_queue (dispatch_offline_all (some []) reqs) true pushOk).exn = none := by
  have hload : dispatch_offline_all (some []) reqs = some (reqs.map reqRecord) := by
    simpa using dispatch_offline_all_load reqs []
  rw [hload]
  exact push_queue_all_ok (reqs.map reqRecord) pushOk hall

/-- Witness for claim C3 on two concrete offline dispatches drained with
every push succeeding. -/
theorem c3_drain_replays_in_enqueue_order_witness :
    (push_queue (dispatch_offline_all (some [])
        [("A", ["x.py"], "t1"), ("B", ["y.py"], "t2")]) true (fun _ => true)).ops
      = [GitOp.stage ["x.py"], GitOp.commit "A", GitOp.push,
         GitOp.stage ["y.py"], GitOp.commit "B", GitOp.push] ∧
    (push_queue (dispatch_offline_all (some [])
        [("A", ["x.py"], "t1"), ("B", ["y.py"], "t2")]) true (fun _ => true)).store
      = some [] ∧
    (push_queue (dispatch_offline_all (some [])
        [("A", ["x.py"], "t1"), ("B", ["y.py"], "t2")]) true (fun _ => true)).exn
      = none :=
  c3_drain_replays_in_enqueue_order [("A", ["x.py"], "t1"), ("B", ["y.py"], "t2")]
    (fun _ => true) (fun _ => rfl)

/-- Claim C4 counterexample: a probe that completes with HTTP status
500 — a non-success signal from the endpoint — makes is_online return
true, because the response status is never inspected. -/
theorem c4_counterexample :
    is_online (ProbeOutcome.response 500) = true ∧ successStatus 500 = false :=
  ⟨rfl, rfl⟩

/-- Claim C4 (amended): is_online returns false exactly when the
reachability attempt ends in a timeout or a network error (the
exceptions caught by its handler); any completed response yields true
regardless of its status, and the function always returns a Bool to its
caller. -/
theorem c4_probe_false_iff_request_exception (o : ProbeOutcome) :
    is_online o = false ↔ o = ProbeOutcome.timeout ∨ o = ProbeOutcome.netError := by
  cases o <;> simp [is_online]

/-- Claim C5: on a repository whose local branch holds commit 2 on top
of the shared commit 1 while the fetched remote tip has only commit 1,
with empty queue and nothing staged, the status report claims
fully-synced even though commit 2 is committed but not pushed: the
range passed to iter_commits is reversed, computing remote-minus-local
instead of the committedNotPushed set local-minus-remote. -/
theorem c5_reversed_range_reports_synced :
    check_push_status true [2, 1] [1] (some []) [] = Report.fullySynced ∧
    committedNotPushedSpec [2, 1] [1] = [2] ∧
    iter_commits_range [2, 1] [1] = [] :=
  ⟨rfl, rfl, rfl⟩

/-- Claim C6: a dispatch performed while offline appends exactly one
record built from the message, the files and the current timestamp to
the persisted queue, emits the queued notice, performs no
version-control operation, and lets no exception escape. -/
theorem c6_offline_dispatch_appends_one (oc : GitOutcome) (store : Store)
    (msg : String) (files : List String) (ts : String) :
    (commit_and_push false oc store msg files ts).store
        = some (load_queue store ++ [⟨msg, files, ts⟩]) ∧
    (commit_and_push false oc store msg files ts).events = [Event.queuedNotice msg] ∧
    (commit_and_push false oc store msg files ts).ops = [] ∧
    (commit_and_push false oc store msg files ts).exn = none :=
  ⟨rfl, rfl, rfl, rfl⟩

/-- Claim C7: a drain invoked with an empty loaded queue or with the
prober reporting offline is a no-op: it performs no version-control
operation, calls save on nothing, raises nothing, and leaves the
persisted queue unchanged. -/
theorem c7_empty_or_offline_drain_is_noop (store : Store) (online : Bool)
    (pushOk : Nat → Bool) (h : load_queue store = [] ∨ online = false) :
    push_queue store online pushOk =
      { store := store, ops := [], writes := [], exn := none } := by
  rcases h with h | h
  · simp [push_queue, h]
  · subst h
    simp [push_queue]

/-- Witness for claim C7 on an empty queue while online. -/
theorem c7_empty_or_offline_drain_is_noop_witness :
    push_queue (some []) true (fun _ => true) =
      { store := some [], ops := [], writes := [], exn := none } :=
  c7_empty_or_offline_drain_is_noop (some []) true (fun _ => true) (Or.inl rfl)

/-- Claim C8: for any persisted queue file content that parses to a
record list, rewriting the file with a save of what load returns yields
a file whose loaded content is the same sequence of records — the
message, files and timestamp of every record survive the round trip. -/
theorem c8_save_load_roundtrip (file : Option Json) (q : List QueueRecord)
    (h : load_queue_file file = some q) :
    load_queue_file (save_queue_file q) = load_queue_file file := by
  rw [h]
  simp [load_queue_file, save_queue_file, decodeQueue_encodeQueue]

/-- Witness for claim C8 on a concrete one-record file whose object
keys are stored in a different order than a fresh save writes them. -/
theorem c8_save_load_roundtrip_witness :
    load_queue_file (save_queue_file [⟨"m", ["a.py"], "t"⟩]) =
      load_queue_file (some (Json.arr [Json.obj
        [("timestamp", Json.str "t"),
         ("files", Json.arr [Json.str "a.py"]),
         ("message", Json.str "m")]])) :=
  c8_save_load_roundtrip _ [⟨"m", ["a.py"], "t"⟩] rfl

/-- Claim C9: in an online dispatch, a push that raises any exception is
swallowed by the bare except clause — the dispatcher queues the commit
record, emits the fallback notices, and lets nothing escape — while an
exception from the unguarded stage or commit step propagates to the
caller and nothing is queued. -/
theorem c9_push_exception_swallowed (oc : GitOutcome) (store : Store)
    (msg : String) (files : List String) (ts : String) :
    (oc.stageOk = true → oc.commitOk = true → oc.pushOk = false →
        (commit_and_push true oc store msg files ts).exn = none ∧
        (commit_and_push true oc store msg files ts).store
            = some (load_queue store ++ [⟨msg, files, ts⟩]) ∧
        (commit_and_push true oc store msg files ts).events
            = [Event.couldNotPushNotice, Event.queuedNotice msg]) ∧
    (oc.stageOk = false →
        (commit_and_push true oc store msg files ts).exn = some GitExn.stageExn ∧
        (commit_and_push true oc store msg files ts).store = store) ∧
    (oc.stageOk = true → oc.commitOk = false →
        (commit_and_push true oc store msg files ts).exn = some GitExn.commitExn ∧
        (commit_and_push true oc store msg files ts).store = store) := by
  rcases oc with ⟨s, c, p⟩
  cases s <;> cases c <;> cases p <;>
    simp [commit_and_push, queue_commit, load_queue, save_queue]

/-- Witness for claim C9 at a concrete online dispatch whose push
raises. -/
theorem c9_push_exception_swallowed_witness :
    (commit_and_push true ⟨true, true, false⟩ (some []) "m" ["a.py"] "t").exn = none ∧
    (commit_and_push true ⟨true, true, false⟩ (some []) "m" ["a.py"] "t").store
        = some [⟨"m", ["a.py"], "t"⟩] ∧
    (commit_and_push true ⟨true, true, false⟩ (some []) "m" ["a.py"] "t").events
        = [Event.couldNotPushNotice, Event.queuedNotice "m"] :=
  (c9_push_exception_swallowed ⟨true, true, false⟩ (some []) "m" ["a.py"] "t").1 rfl rfl rfl

/-- Claim C10 counterexample: answering the set-default question with
capital Y — which is not exactly the string y — still changes the
default project, because the script lowercases the answer before
comparing; the same run also shows that the key actually written is the
stripped name. -/
theorem c10_counterexample :
    add_project ⟨[("foo", "/old")], none⟩ " foo " "/new" "Y"
        = ⟨[("foo", "/new")], some "foo"⟩ ∧
    (" foo " : String) ≠ "foo" ∧ ("Y" : String) ≠ "y" := by
  refine ⟨?_, by decide, by decide⟩
  rfl

/-- Claim C10 (amended): a run of the registration script preserves
every previously registered entry whose key differs from the stripped
entered name; the stripped name maps to the stripped entered path
afterwards; and the default project changes, to the stripped name,
exactly when the answer stripped and lowercased equals y. -/
theorem c10_registry_update (data : Registry) (rawName rawPath rawAnswer : String) :
    (∀ k v, (k, v) ∈ data.projects → k ≠ pyStrip rawName →
        (k, v) ∈ (add_project data rawName rawPath rawAnswer).projects) ∧
    lookupPath (add_project data rawName rawPath rawAnswer).projects (pyStrip rawName)
        = some (pyStrip rawPath) ∧
    (pyLower (pyStrip rawAnswer) ≠ "y" →
        (add_project data rawName rawPath rawAnswer).dflt = data.dflt) ∧
    (pyLower (pyStrip rawAnswer) = "y" →
        (add_project data rawName rawPath rawAnswer).dflt = some (pyStrip rawName)) := by
  by_cases ha : pyLower (pyStrip rawAnswer) = "y"
  · refine ⟨?_, ?_, ?_, ?_⟩
    · intro k v hmem hne
      simp only [add_project, if_pos ha]
      exact dictInsert_preserves data.projects (pyStrip rawName) (pyStrip rawPath) k v hmem hne
    · simp only [add_project, if_pos ha]
      exact lookupPath_dictInsert _ _ _
    · intro h
      exact absurd ha h
    · intro _
      simp [add_project, if_pos ha]
  · refine ⟨?_, ?_, ?_, ?_⟩
    · intro k v hmem hne
      simp only [add_project, if_neg ha]
      exact dictInsert_preserves data.projects (pyStrip rawName) (pyStrip rawPath) k v hmem hne
    · simp only [add_project, if_neg ha]
      exact lookupPath_dictInsert _ _ _
    · intro _
      simp [add_project, if_neg ha]
    · intro h
      exact absurd h ha

/-- Witness for the amended claim C10: registering a second project
with answer n keeps the first entry and the existing default. -/
theorem c10_registry_update_witness :
    ("bar", "/b") ∈ (add_project ⟨[("bar", "/b")], some "bar"⟩ "baz" "/z" "n").projects ∧
    lookupPath (add_project ⟨[("bar", "/b")], some "bar"⟩ "baz" "/z" "n").projects "baz"
        = some "/z" ∧
    (add_project ⟨[("bar", "/b")], some "bar"⟩ "baz" "/z" "n").dflt = some "bar" := by
  have h := c10_registry_update ⟨[("bar", "/b")], some "bar"⟩ "baz" "/z" "n"
  refine ⟨?_, ?_, ?_⟩
  · exact h.1 "bar" "/b" (by simp) (by decide)
  · exact h.2.1
  · exact h.2.2.1 (by decide)

end GitdevBot
